import Mathlib

/-!
Verification of the TradingAgents scheduler (`tradingagents/scheduler.py`)
against its natural-language specification.

The Python module is shallowly embedded: pure helpers become Lean
functions; the filesystem, the SMTP/HTTP transports and the external
analysis engine are modelled by explicit behaviour parameters; Python
exceptions become `Except` values.  Aware datetimes are modelled as
wall-clock fields plus the attached UTC offset, mirroring pytz: `day`
counts calendar days from an epoch falling on a Monday (so `day % 7`
is the Python `weekday()` numbering, Monday = 0 … Sunday = 6),
comparisons compare UTC instants, and `timedelta` arithmetic moves the
wall clock while keeping the offset — the source never calls
`tz.normalize`, so an offset can go stale across a DST transition.
-/

namespace TradingAgents

/-- A `datetime.time` value: time of day with hour and minute
(seconds are always zero for parsed schedule times). -/
structure DTime where
  hour : Nat
  minute : Nat
deriving DecidableEq, Repr

/-- Seconds since midnight of a `DTime`. -/
def DTime.toSec (t : DTime) : Nat :=
  (t.hour * 60 + t.minute) * 60

/-- A pytz-style aware `datetime`: wall-clock fields (days since a
Monday epoch, seconds within the day) plus the attached UTC offset in
seconds.  `datetime + timedelta` advances the wall clock and keeps the
offset unchanged — the source never calls `tz.normalize`, so the offset
can be stale for the new wall time. -/
structure AwareDT where
  day : Nat
  sec : Nat
  offset : Int
deriving DecidableEq, Repr

/-- The UTC instant of an aware datetime, in seconds since the epoch. -/
def AwareDT.utc (d : AwareDT) : Int :=
  (d.day : Int) * 86400 + (d.sec : Int) - d.offset

/-- Python `<=` on aware datetimes compares UTC instants. -/
def AwareDT.le (a b : AwareDT) : Prop := a.utc ≤ b.utc

/-- Python `<` on aware datetimes. -/
def AwareDT.lt (a b : AwareDT) : Prop := a.utc < b.utc

instance (a b : AwareDT) : Decidable (AwareDT.le a b) := by
  unfold AwareDT.le; infer_instance

instance (a b : AwareDT) : Decidable (AwareDT.lt a b) := by
  unfold AwareDT.lt; infer_instance

/-- `datetime.weekday()` of the wall-clock date:
Monday = 0 … Sunday = 6. -/
def AwareDT.weekday (d : AwareDT) : Nat := d.day % 7

/-- `d + timedelta(days=n)`: wall-clock addition with the offset kept
(stale across a DST transition). -/
def AwareDT.addDays (d : AwareDT) (n : Nat) : AwareDT :=
  ⟨d.day + n, d.sec, d.offset⟩

/-- A pytz timezone, seen through `tz.localize`: the UTC offset it
attaches to a naive wall-clock datetime (pytz resolves ambiguous
fall-back wall times with its `is_dst=False` default, so this is a
function of the wall time). -/
def PyTz : Type := Nat → Nat → Int

/-- `tz.localize(naive)`: attach the zone's offset for that wall time. -/
def localize (tz : PyTz) (day : Nat) (sec : Nat) : AwareDT :=
  ⟨day, sec, tz day sec⟩

/-! ### `parse_schedule_times` (scheduler.py lines 52-69)

Python strings are embedded as their character lists so that every
operation is structural recursion. -/

/-- Python `str.split(sep)` for a one-character separator. -/
def pySplit (sep : Char) : List Char → List (List Char)
  | [] => [[]]
  | c :: rest =>
    let r := pySplit sep rest
    if c = sep then [] :: r
    else
      match r with
      | [] => [[c]]
      | g :: gs => (c :: g) :: gs

/-- Python `str.strip()`: drop leading and trailing whitespace. -/
def pyStrip (cs : List Char) : List Char :=
  ((cs.dropWhile Char.isWhitespace).reverse.dropWhile Char.isWhitespace).reverse

/-- `strptime` field parser for `%H` / `%M`: one or two decimal digits,
value at most `hi`. -/
def parseTimeField (cs : List Char) (hi : Nat) : Option Nat :=
  if cs.length = 0 ∨ 2 < cs.length ∨ ¬ cs.all Char.isDigit then
    none
  else
    let v := cs.foldl (fun acc c => acc * 10 + (c.toNat - 48)) 0
    if v ≤ hi then some v else none

/-- `datetime.strptime(candidate, "%H:%M").time()`: exactly one colon,
hour 0-23, minute 0-59; `none` models the `ValueError` branch. -/
def parseHHMM (cs : List Char) : Option DTime :=
  match pySplit ':' cs with
  | [h, m] => do
    let hv ← parseTimeField h 23
    let mv ← parseTimeField m 59
    some ⟨hv, mv⟩
  | _ => none

/-- Order used by Python `sorted` on `datetime.time` values. -/
def timeLe (a b : DTime) : Prop :=
  a.hour * 60 + a.minute ≤ b.hour * 60 + b.minute

instance : DecidableRel timeLe := by
  intro a b; unfold timeLe; infer_instance

instance : IsTotal DTime timeLe :=
  ⟨by intro a b; unfold timeLe; omega⟩

instance : IsTrans DTime timeLe :=
  ⟨by intro a b c; unfold timeLe; omega⟩

/-- Successfully parsed entries of the comma-separated configuration, in
input order: split on commas, strip, skip empties, skip parse failures. -/
def scheduleEntries (cs : List Char) : List DTime :=
  (pySplit ',' cs).filterMap fun raw =>
    let candidate := pyStrip raw
    if candidate.isEmpty then none else parseHHMM candidate

/-- `parse_schedule_times`: `None`/empty input yields `[]`; otherwise the
parsed entries sorted ascending (Python's `sorted` is a stable ascending
sort, embedded as insertion sort). -/
def parse_schedule_times (times_config : Option String) : List DTime :=
  match times_config with
  | none => []
  | some s =>
    if s.data.isEmpty then []
    else (scheduleEntries s.data).insertionSort timeLe

/-! ### `next_run_after` (scheduler.py lines 72-84) -/

/-- The `while candidate.weekday() >= 5: candidate += timedelta(days=1)`
loop, on the day number. -/
def skipWeekendDays (day : Nat) : Nat :=
  if day % 7 ≥ 5 then skipWeekendDays (day + 1) else day
termination_by (if day % 7 = 5 then 2 else if day % 7 = 6 then 1 else 0 : Nat)
decreasing_by
  rename_i h
  have hs : (day + 1) % 7 = (day % 7 + 1) % 7 := by
    conv_lhs => rw [Nat.add_mod]
  split_ifs <;> omega

/-- The candidate instant after the same-day/next-day correction:
`tz.localize(datetime.combine(now.date(), run_time))`, advanced one
wall-clock day (offset kept) when its UTC instant is at or before
`now`'s. -/
def correctedCandidate (now : AwareDT) (run_time : DTime) (tz : PyTz) : AwareDT :=
  let candidate := localize tz now.day run_time.toSec
  if AwareDT.le candidate now then candidate.addDays 1 else candidate

/-- `next_run_after`: same/next-day correction, then wall-clock weekend
skipping (each `+= timedelta(days=1)` keeps the offset) when
`skip_weekends` is set. -/
def next_run_after (now : AwareDT) (run_time : DTime) (tz : PyTz)
    (skip_weekends : Bool) : AwareDT :=
  let candidate := correctedCandidate now run_time tz
  if skip_weekends then ⟨skipWeekendDays candidate.day, candidate.sec, candidate.offset⟩
  else candidate

/-! ### Lemmas about the schedule clock -/

theorem skipWeekendDays_closed (d : Nat) :
    skipWeekendDays d = if d % 7 = 5 then d + 2 else if d % 7 = 6 then d + 1 else d := by
  rcases Nat.lt_or_ge (d % 7) 5 with h | h
  · rw [skipWeekendDays, if_neg (by omega)]
    split_ifs <;> omega
  · have h7 : d % 7 < 7 := Nat.mod_lt _ (by omega)
    have hs1 : (d + 1) % 7 = (d % 7 + 1) % 7 := by
      conv_lhs => rw [Nat.add_mod]
    have hs2 : (d + 2) % 7 = (d % 7 + 2) % 7 := by
      conv_lhs => rw [Nat.add_mod]
    rcases (by omega : d % 7 = 5 ∨ d % 7 = 6) with h5 | h6
    · rw [skipWeekendDays, if_pos (by omega),
        skipWeekendDays, if_pos (by omega),
        skipWeekendDays, if_neg (by omega)]
      split_ifs <;> omega
    · rw [skipWeekendDays, if_pos (by omega),
        skipWeekendDays, if_neg (by omega)]
      split_ifs <;> omega

theorem skipWeekendDays_ge (d : Nat) : d ≤ skipWeekendDays d := by
  rw [skipWeekendDays_closed]; split_ifs <;> omega

theorem skipWeekendDays_weekday (d : Nat) : skipWeekendDays d % 7 < 5 := by
  have h7 : d % 7 < 7 := Nat.mod_lt _ (by omega)
  have hs1 : (d + 1) % 7 = (d % 7 + 1) % 7 := by
    conv_lhs => rw [Nat.add_mod]
  have hs2 : (d + 2) % 7 = (d % 7 + 2) % 7 := by
    conv_lhs => rw [Nat.add_mod]
  rw [skipWeekendDays_closed]
  split_ifs <;> omega

theorem next_run_after_eq (now : AwareDT) (run_time : DTime) (tz : PyTz)
    (skip_weekends : Bool) :
    next_run_after now run_time tz skip_weekends =
      ⟨if skip_weekends then skipWeekendDays (correctedCandidate now run_time tz).day
        else (correctedCandidate now run_time tz).day,
        (correctedCandidate now run_time tz).sec,
        (correctedCandidate now run_time tz).offset⟩ := by
  cases skip_weekends <;> rfl

theorem correctedCandidate_eq (now : AwareDT) (run_time : DTime) (tz : PyTz) :
    correctedCandidate now run_time tz =
      if AwareDT.le ⟨now.day, run_time.toSec, tz now.day run_time.toSec⟩ now
      then ⟨now.day + 1, run_time.toSec, tz now.day run_time.toSec⟩
      else ⟨now.day, run_time.toSec, tz now.day run_time.toSec⟩ := rfl

/-- C2 counterexample — the Europe/Madrid DST fall-back of 2025-10-26
(day 6, a Sunday; wall times before 03:00 carry +02:00, from 03:00 on
+01:00): for `now` = 23:30 that day (offset +01:00, consistent with the
zone) and trigger 00:00, the candidate gets the pre-transition +02:00
offset, is corrected one day to wall 00:00 Monday still carrying
+02:00, and the returned instant lies strictly BEFORE `now` in UTC —
the claimed strictly-after guarantee fails on the program's
stale-offset arithmetic. -/
theorem next_run_after_dst_counterexample :
    let tz : PyTz := fun d s => if d < 6 ∨ (d = 6 ∧ s < 10800) then 7200 else 3600
    let now : AwareDT := ⟨6, 84600, 3600⟩
    now.offset = tz now.day now.sec
    ∧ AwareDT.lt (next_run_after now ⟨0, 0⟩ tz false) now
    ∧ ¬ AwareDT.lt now (next_run_after now ⟨0, 0⟩ tz false) := by
  decide

/-- C2 amended: when the zone attaches one fixed UTC offset equal to
`now`'s (no DST transition in play) and `now` is a well-formed instant
(seconds within the day), `next_run_after` returns an instant strictly
after `now` (a candidate equal to `now` counts as passed and is
advanced one day); unconditionally, with `skip_weekends` the result
never falls on Saturday or Sunday by wall-clock weekday
(Monday = 0 … Sunday = 6), the weekend skip applying after the
same/next-day correction, and a corrected candidate landing on Saturday
advances two wall-clock days to the following Monday at the same
trigger time.  At a DST fall-back the stale-offset arithmetic can
return an instant at or before `now`. -/
theorem next_run_after_amended (now : AwareDT) (run_time : DTime) (tz : PyTz)
    (skip_weekends : Bool) :
    ((∀ d s, tz d s = now.offset) → now.sec < 86400 →
      AwareDT.lt now (next_run_after now run_time tz skip_weekends))
    ∧ (skip_weekends = true →
        (next_run_after now run_time tz skip_weekends).weekday < 5)
    ∧ ((correctedCandidate now run_time tz).day % 7 = 5 →
        next_run_after now run_time tz true
          = AwareDT.addDays (correctedCandidate now run_time tz) 2) := by
  refine ⟨?_, ?_, ?_⟩
  · intro htz hsec
    have hoff := htz now.day run_time.toSec
    rw [next_run_after_eq, correctedCandidate_eq]
    by_cases hle : AwareDT.le ⟨now.day, run_time.toSec, tz now.day run_time.toSec⟩ now
    · rw [if_pos hle]
      have hge := skipWeekendDays_ge (now.day + 1)
      unfold AwareDT.le AwareDT.utc at hle
      unfold AwareDT.lt AwareDT.utc
      dsimp only at hle ⊢
      rw [hoff] at hle ⊢
      split_ifs <;> omega
    · rw [if_neg hle]
      have hge := skipWeekendDays_ge now.day
      unfold AwareDT.le AwareDT.utc at hle
      unfold AwareDT.lt AwareDT.utc
      dsimp only at hle ⊢
      rw [hoff] at hle ⊢
      split_ifs <;> omega
  · intro hskip
    rw [next_run_after_eq, hskip]
    simp only [AwareDT.weekday, if_pos]
    exact skipWeekendDays_weekday _
  · intro hsat
    rw [next_run_after_eq]
    rw [skipWeekendDays_closed, if_pos hsat]
    simp [AwareDT.addDays]

/-- Witness for C2 amended in a fixed-offset zone (+01:00): Thursday
day 3 at 10:00:00 with trigger 09:30 (corrected candidate Friday), and
a Friday-evening `now` whose corrected Saturday candidate advances to
Monday at the same trigger time. -/
theorem next_run_after_amended_witness :
    AwareDT.lt ⟨3, 36000, 3600⟩
        (next_run_after ⟨3, 36000, 3600⟩ ⟨9, 30⟩ (fun _ _ => 3600) true)
    ∧ (next_run_after ⟨3, 36000, 3600⟩ ⟨9, 30⟩ (fun _ _ => 3600) true).weekday < 5
    ∧ next_run_after ⟨4, 80000, 3600⟩ ⟨9, 30⟩ (fun _ _ => 3600) true
        = AwareDT.addDays
            (correctedCandidate ⟨4, 80000, 3600⟩ ⟨9, 30⟩ (fun _ _ => 3600)) 2 := by
  have hd : (correctedCandidate ⟨4, 80000, 3600⟩ ⟨9, 30⟩
      (fun _ _ => (3600 : Int))).day % 7 = 5 := by decide
  have h1 := next_run_after_amended ⟨3, 36000, 3600⟩ ⟨9, 30⟩ (fun _ _ => 3600) true
  have h2 := next_run_after_amended ⟨4, 80000, 3600⟩ ⟨9, 30⟩ (fun _ _ => 3600) true
  exact ⟨h1.1 (fun _ _ => rfl) (by decide), h1.2.1 rfl, h2.2.2 hd⟩

/-- C3 counterexample: duplicate entries survive
`parse_schedule_times`; the result is not de-duplicated. -/
theorem parse_schedule_times_dedup_counterexample :
    parse_schedule_times (some "09:00,09:00") = [⟨9, 0⟩, ⟨9, 0⟩]
    ∧ ¬ (parse_schedule_times (some "09:00,09:00")).Nodup := by
  decide

/-- C3 amended: `parse_schedule_times` splits on commas, trims, skips
entries that fail to parse, and returns the successfully parsed entries
sorted ascending — duplicates by parsed value are retained, not
de-duplicated. -/
theorem parse_schedule_times_amended (cfg : Option String) :
    (parse_schedule_times cfg).Sorted timeLe
    ∧ (∀ s : String, cfg = some s → s.data ≠ [] →
        (parse_schedule_times cfg).Perm (scheduleEntries s.data)) := by
  constructor
  · match cfg with
    | none => simp [parse_schedule_times]
    | some s =>
      simp only [parse_schedule_times]
      split_ifs
      · simp
      · exact List.sorted_insertionSort _ _
  · rintro s rfl hne
    simp only [parse_schedule_times]
    rw [if_neg (by simpa using hne)]
    exact List.perm_insertionSort _ _

/-- Witness for C3 amended at a concrete input. -/
theorem parse_schedule_times_amended_witness :
    (parse_schedule_times (some "15:30, 09:00, bad")).Sorted timeLe
    ∧ (parse_schedule_times (some "15:30, 09:00, bad")).Perm
        (scheduleEntries ("15:30, 09:00, bad").data) := by
  have h := parse_schedule_times_amended (some "15:30, 09:00, bad")
  exact ⟨h.1, h.2 _ rfl (by decide)⟩

/-! ### `_make_json_safe` (scheduler.py lines 190-217)

Python runtime values reaching the converter are embedded as a closed
inductive: primitives, `datetime`/`date` (carrying their ISO form),
`Path`, `dict` (string keys), list/tuple/set (all normalized to a list
by the source, embedded as one sequence constructor), and arbitrary
objects.  An object carries: whether `is_dataclass` holds, its
`__dict__` items, the result of a callable `dict` attribute if any
(`Except.error` models the method raising), a role-and-content shape if
it has both `content` and `type` attributes, and its `str()` form. -/

inductive PyValue where
  | pynone
  | str (s : String)
  | int (n : Int)
  | float (rep : String)
  | bool (b : Bool)
  | datetime (iso : String)
  | path (p : String)
  | dict (kvs : List (String × PyValue))
  | seq (vs : List PyValue)
  | obj (isDataclass : Bool) (dunderDict : List (String × PyValue))
      (dictMethod : Option (Except String (List (String × PyValue))))
      (contentType : Option (String × PyValue)) (reprStr : String)

mutual

/-- `_make_json_safe`: recursive JSON-safety normalization.  Exceptions
are modelled as `Except.error`; the only raising operation is a `dict()`
method call, whose failure the source catches and ignores. -/
def _make_json_safe : PyValue → Except String PyValue
  | .pynone => .ok .pynone
  | .str s => .ok (.str s)
  | .int n => .ok (.int n)
  | .float rep => .ok (.float rep)
  | .bool b => .ok (.bool b)
  | .datetime iso => .ok (.str iso)
  | .path p => .ok (.str p)
  | .dict kvs =>
    match jsonSafeKVs kvs with
    | .ok kvs2 => .ok (.dict kvs2)
    | .error e => .error e
  | .seq vs =>
    match jsonSafeList vs with
    | .ok vs2 => .ok (.seq vs2)
    | .error e => .error e
  | .obj true dd _dm ct rep =>
    match jsonSafeKVs dd with
    | .ok kvs2 => .ok (.dict kvs2)
    | .error e => .error e
  | .obj false dd (some (.ok kvs)) ct rep =>
    match jsonSafeKVs kvs with
    | .ok kvs2 => .ok (.dict kvs2)
    | .error _ => jsonSafeObjRest dd ct rep
  | .obj false dd (some (.error _)) ct rep => jsonSafeObjRest dd ct rep
  | .obj false dd Option.none ct rep => jsonSafeObjRest dd ct rep
termination_by v => sizeOf v

/-- Fall-through checks of `_make_json_safe` for plain objects: a
non-empty `__dict__`, then a role-and-content shape, then `str(value)`. -/
def jsonSafeObjRest (dd : List (String × PyValue)) (ct : Option (String × PyValue))
    (rep : String) : Except String PyValue :=
  match dd with
  | (k, v) :: rest =>
    match jsonSafeKVs ((k, v) :: rest) with
    | .ok kvs2 => .ok (.dict kvs2)
    | .error e => .error e
  | [] =>
    match ct with
    | some (ty, content) =>
      match _make_json_safe content with
      | .ok c2 => .ok (.dict [("type", .str ty), ("content", c2)])
      | .error e => .error e
    | none => .ok (.str rep)
termination_by sizeOf dd + sizeOf ct + 1

/-- Elementwise conversion of a sequence. -/
def jsonSafeList : List PyValue → Except String (List PyValue)
  | [] => .ok []
  | v :: rest =>
    match _make_json_safe v with
    | .ok v2 =>
      match jsonSafeList rest with
      | .ok rest2 => .ok (v2 :: rest2)
      | .error e => .error e
    | .error e => .error e
termination_by vs => sizeOf vs

/-- Valuewise conversion of a string-keyed mapping. -/
def jsonSafeKVs : List (String × PyValue) → Except String (List (String × PyValue))
  | [] => .ok []
  | (k, v) :: rest =>
    match _make_json_safe v with
    | .ok v2 =>
      match jsonSafeKVs rest with
      | .ok rest2 => .ok ((k, v2) :: rest2)
      | .error e => .error e
    | .error e => .error e
termination_by kvs => sizeOf kvs

end

/-- The first `isinstance` check of `_make_json_safe`: `None`, `str`,
`int`, `float`, `bool`. -/
def isPrimitive : PyValue → Bool
  | .pynone => true
  | .str _ => true
  | .int _ => true
  | .float _ => true
  | .bool _ => true
  | _ => false

theorem sizeOf_option_pos {α : Type} [SizeOf α] (o : Option α) : 1 ≤ sizeOf o := by
  cases o <;> simp

theorem jsonSafe_ok_aux :
    ∀ n : Nat,
      (∀ v : PyValue, sizeOf v < n → ∃ w, _make_json_safe v = .ok w)
      ∧ (∀ vs : List PyValue, sizeOf vs < n → ∃ ws, jsonSafeList vs = .ok ws)
      ∧ (∀ kvs : List (String × PyValue), sizeOf kvs < n → ∃ ws, jsonSafeKVs kvs = .ok ws)
      ∧ (∀ (dd : List (String × PyValue)) (ct : Option (String × PyValue)) (rep : String),
          sizeOf dd + sizeOf ct + 1 < n → ∃ w, jsonSafeObjRest dd ct rep = .ok w) := by
  intro n
  induction n with
  | zero =>
    refine ⟨?_, ?_, ?_, ?_⟩ <;> (intros; omega)
  | succ n ih =>
    obtain ⟨ih1, ih2, ih3, ih4⟩ := ih
    refine ⟨?_, ?_, ?_, ?_⟩
    · intro v hv
      match v with
      | .pynone => exact ⟨.pynone, by simp [_make_json_safe]⟩
      | .str s => exact ⟨.str s, by simp [_make_json_safe]⟩
      | .int m => exact ⟨.int m, by simp [_make_json_safe]⟩
      | .float r => exact ⟨.float r, by simp [_make_json_safe]⟩
      | .bool b => exact ⟨.bool b, by simp [_make_json_safe]⟩
      | .datetime iso => exact ⟨.str iso, by simp [_make_json_safe]⟩
      | .path p => exact ⟨.str p, by simp [_make_json_safe]⟩
      | .dict kvs =>
        obtain ⟨ws, hw⟩ := ih3 kvs (by simp at hv; omega)
        exact ⟨.dict ws, by simp [_make_json_safe, hw]⟩
      | .seq vs =>
        obtain ⟨ws, hw⟩ := ih2 vs (by simp at hv; omega)
        exact ⟨.seq ws, by simp [_make_json_safe, hw]⟩
      | .obj isDc dd dm ct rep =>
        simp at hv
        have hct := sizeOf_option_pos ct
        cases isDc with
        | true =>
          obtain ⟨ws, hw⟩ := ih3 dd (by omega)
          exact ⟨.dict ws, by simp [_make_json_safe, hw]⟩
        | false =>
          cases dm with
          | none =>
            obtain ⟨w, hw⟩ := ih4 dd ct rep (by simp at hv; omega)
            exact ⟨w, by simp [_make_json_safe, hw]⟩
          | some res =>
            cases res with
            | ok kvs =>
              obtain ⟨ws, hw⟩ := ih3 kvs (by simp at hv; omega)
              exact ⟨.dict ws, by simp [_make_json_safe, hw]⟩
            | error e =>
              obtain ⟨w, hw⟩ := ih4 dd ct rep (by simp at hv; omega)
              exact ⟨w, by simp [_make_json_safe, hw]⟩
    · intro vs hvs
      match vs with
      | [] => exact ⟨[], by simp [jsonSafeList]⟩
      | v :: rest =>
        simp at hvs
        obtain ⟨w, hw⟩ := ih1 v (by omega)
        obtain ⟨ws, hws⟩ := ih2 rest (by omega)
        exact ⟨w :: ws, by simp [jsonSafeList, hw, hws]⟩
    · intro kvs hkvs
      match kvs with
      | [] => exact ⟨[], by simp [jsonSafeKVs]⟩
      | (k, v) :: rest =>
        simp at hkvs
        obtain ⟨w, hw⟩ := ih1 v (by omega)
        obtain ⟨ws, hws⟩ := ih3 rest (by omega)
        exact ⟨(k, w) :: ws, by simp [jsonSafeKVs, hw, hws]⟩
    · intro dd ct rep hsz
      have hct := sizeOf_option_pos ct
      match dd with
      | (k, v) :: rest =>
        obtain ⟨ws, hw⟩ := ih3 ((k, v) :: rest) (by omega)
        exact ⟨.dict ws, by simp [jsonSafeObjRest, hw]⟩
      | [] =>
        match ct with
        | some (ty, content) =>
          simp at hsz
          obtain ⟨w, hw⟩ := ih1 content (by omega)
          exact ⟨.dict [("type", .str ty), ("content", w)], by simp [jsonSafeObjRest, hw]⟩
        | Option.none => exact ⟨.str rep, by simp [jsonSafeObjRest]⟩

/-- C4: `_make_json_safe` returns a result without raising for every
embeddable input, and acts as the identity on already-primitive values
(`None`, strings, integers, floats, booleans). -/
theorem make_json_safe_never_raises (v : PyValue) :
    (∃ w, _make_json_safe v = .ok w)
    ∧ (isPrimitive v = true → _make_json_safe v = .ok v) := by
  constructor
  · exact (jsonSafe_ok_aux (sizeOf v + 1)).1 v (Nat.lt_succ_self _)
  · intro hp
    match v, hp with
    | .pynone, _ => simp [_make_json_safe]
    | .str s, _ => simp [_make_json_safe]
    | .int m, _ => simp [_make_json_safe]
    | .float r, _ => simp [_make_json_safe]
    | .bool b, _ => simp [_make_json_safe]

/-- Witness for C4 at concrete inputs: the primitive `int 3` and a
non-primitive object whose `dict()` method raises. -/
theorem make_json_safe_never_raises_witness :
    (∃ w, _make_json_safe (.int 3) = .ok w)
    ∧ _make_json_safe (.int 3) = .ok (.int 3)
    ∧ (∃ w, _make_json_safe (.obj false [] (some (.error "boom")) Option.none "o") = .ok w) := by
  have h1 := make_json_safe_never_raises (.int 3)
  have h2 := make_json_safe_never_raises (.obj false [] (some (.error "boom")) Option.none "o")
  exact ⟨h1.1, h1.2 rfl, h2.1⟩

/-! ### `RunResult` and the batch runner (scheduler.py lines 29-43,
87-175, 473-562) -/

/-- One scheduled execution instant: the `strftime` forms the runner
derives from it (`%Y-%m-%d` and `%H-%M`). -/
structure RunInstant where
  dateStr : String
  hmStr : String
deriving DecidableEq, Repr

/-- `RunResult`: container holding the outcome of a single ticker
execution.  `report_dir` is the path string of the directory. -/
structure RunResult where
  ticker : String
  analysis_date : String
  decision : Option String
  run_timestamp : RunInstant
  report_markdown : Option String
  report_dir : String
  error : Option String := Option.none
deriving DecidableEq, Repr

/-- `RunResult.success`: derived property, true iff `error` is `None`. -/
def RunResult.success (r : RunResult) : Bool := r.error.isNone

/-- The engine's `final_state` dict restricted to the string-valued keys
the scheduler reads; `risk_judge_decision` embeds
`final_state.get("risk_debate_state", {}).get("judge_decision")`.
An absent key is `none`. -/
structure FinalState where
  market_report : Option String := Option.none
  sentiment_report : Option String := Option.none
  news_report : Option String := Option.none
  fundamentals_report : Option String := Option.none
  investment_plan : Option String := Option.none
  trader_investment_plan : Option String := Option.none
  risk_judge_decision : Option String := Option.none
  final_trade_decision : Option String := Option.none
deriving DecidableEq, Repr

/-- Python truthiness of an optional string (`None` and `""` falsy). -/
def truthyOpt : Option String → Bool
  | Option.none => false
  | some s => !(s.data.isEmpty)

/-- Python `str.strip()` at `String` type. -/
def stripStr (s : String) : String := ⟨pyStrip s.data⟩

/-- A titled section: heading line plus stripped body, emitted only when
the value is truthy. -/
def optSection (title : String) (v : Option String) : List String :=
  if truthyOpt v then [title, stripStr (v.getD "")] else []

/-- `_build_report`: assemble the markdown summary from the optional
sections in the fixed source order. -/
def _build_report (st : FinalState) : String :=
  let analyst_content :=
    ([(st.market_report, "Market Analysis"),
      (st.sentiment_report, "Social Sentiment"),
      (st.news_report, "News Analysis"),
      (st.fundamentals_report, "Fundamentals Analysis")]).filterMap
      (fun kv =>
        if truthyOpt kv.1 then some ("### " ++ kv.2 ++ "\n" ++ stripStr (kv.1.getD ""))
        else Option.none)
  let sections :=
    (if analyst_content.isEmpty then [] else "## Analyst Team Reports" :: analyst_content)
    ++ optSection "## Research Team Decision" st.investment_plan
    ++ optSection "## Trading Team Plan" st.trader_investment_plan
    ++ optSection "## Portfolio Management Decision" st.risk_judge_decision
    ++ optSection "## Final Trade Decision" st.final_trade_decision
  stripStr (String.intercalate "\n\n" sections)

/-- The `section_keys` list of `_write_outputs` with their values. -/
def sectionKeysOf (st : FinalState) : List (String × Option String) :=
  [("market_report", st.market_report),
   ("sentiment_report", st.sentiment_report),
   ("news_report", st.news_report),
   ("fundamentals_report", st.fundamentals_report),
   ("investment_plan", st.investment_plan),
   ("trader_investment_plan", st.trader_investment_plan),
   ("final_trade_decision", st.final_trade_decision)]

/-- The `final_state` dict as a `PyValue`, as handed to
`_make_json_safe`. -/
def finalStateToPy (st : FinalState) : PyValue :=
  .dict ((sectionKeysOf st).filterMap (fun kv => kv.2.map (fun s => (kv.1, PyValue.str s)))
    ++ (match st.risk_judge_decision with
        | some s => [("risk_debate_state", PyValue.dict [("judge_decision", PyValue.str s)])]
        | Option.none => []))

/-- A filesystem operation of the report writer (contents elided: the
claims are about which paths are touched). -/
inductive FsOp where
  | mkdir (path : String)
  | write (path : String)
deriving DecidableEq, Repr

/-- Execute operations in order against a write-failure behaviour
(`fsFail path = some e` models `write_text` raising `e`; `mkdir` with
`parents=True, exist_ok=True` is assumed not to raise).  Returns the
operations performed and the first error if any. -/
def performOps (fsFail : String → Option String) : List FsOp → List FsOp × Option String
  | [] => ([], Option.none)
  | FsOp.mkdir p :: rest =>
    let r := performOps fsFail rest
    (FsOp.mkdir p :: r.1, r.2)
  | FsOp.write p :: rest =>
    match fsFail p with
    | some e => ([], some e)
    | Option.none =>
      let r := performOps fsFail rest
      (FsOp.write p :: r.1, r.2)

/-- `_write_outputs`: build the report directory and files.  Returns the
operations performed and either `(report_dir, summary_md)` or the raised
error. -/
def _write_outputs (results_dir ticker : String) (run_time : RunInstant)
    (fsFail : String → Option String) (st : FinalState) (decision : Option String) :
    List FsOp × Except String (String × String) :=
  let report_dir :=
    results_dir ++ "/" ++ ticker ++ "/" ++ run_time.dateStr ++ "/" ++ run_time.hmStr
  let reports_dir := report_dir ++ "/reports"
  let summary_md := _build_report st
  let sectionOps := (sectionKeysOf st).filterMap fun kv =>
    match kv.2 with
    | Option.none => Option.none
    | some content =>
      if content.data.isEmpty then Option.none
      else if (stripStr content).data.isEmpty then Option.none
      else some (FsOp.write (reports_dir ++ "/" ++ kv.1 ++ ".md"))
  let ops1 :=
    [FsOp.mkdir report_dir, FsOp.write (report_dir ++ "/final_report.md"),
     FsOp.mkdir reports_dir, FsOp.write (reports_dir ++ "/final_report.md")]
    ++ sectionOps
  match performOps fsFail ops1 with
  | (done, some e) => (done, .error e)
  | (done, Option.none) =>
    match _make_json_safe (finalStateToPy st) with
    | .error e => (done, .error e)
    | .ok _ =>
      let ops2 :=
        [FsOp.write (report_dir ++ "/final_state.json")]
        ++ (match decision with
            | some d => if d.data.isEmpty then [] else [FsOp.write (report_dir ++ "/decision.txt")]
            | Option.none => [])
      match performOps fsFail ops2 with
      | (done2, some e) => (done ++ done2, .error e)
      | (done2, Option.none) => (done ++ done2, .ok (report_dir, summary_md))

/-- Scheduler configuration slice used by the batch runner. -/
structure SchedulerConfig where
  results_dir : String
  ace_enabled : Bool := true
deriving Repr

/-- Behaviour of the external `TradingAgentsGraph` for one ticker:
construction may raise; `propagate` yields `(final_state, decision)` or
raises; ACE learning and skillbook saving may raise but are caught and
only logged by the source. -/
structure GraphBehavior where
  constructErr : Option String := Option.none
  propagate : String → String → Except String (FinalState × Option String)
  hasAceEngine : Bool := true
  aceLearnErr : Option String := Option.none
  saveSkillbookErr : Option String := Option.none

/-- The `try` body of `_run_single_ticker`: graph construction, engine
propagation, report writing.  ACE learning and skillbook-save failures
are swallowed by their inner `try`/`except` blocks and do not affect the
result.  Returns the filesystem operations performed and either
`(decision, report_dir, report_md)` or the raised error. -/
def runSingleAttempt (cfg : SchedulerConfig) (beh : GraphBehavior)
    (fsFail : String → Option String) (ticker : String) (run_time : RunInstant) :
    List FsOp × Except String (Option String × String × String) :=
  match beh.constructErr with
  | some e => ([], .error e)
  | Option.none =>
    match beh.propagate ticker run_time.dateStr with
    | .error e => ([], .error e)
    | .ok (final_state, decision) =>
      let wr := _write_outputs cfg.results_dir ticker run_time fsFail final_state decision
      match wr.2 with
      | .error e => (wr.1, .error e)
      | .ok (report_dir, report_md) => (wr.1, .ok (decision, report_dir, report_md))

/-- `_run_single_ticker`: on success build the successful `RunResult`;
on any exception from the `try` body, create
`results_dir/ticker/date` and return a failed `RunResult` pointing
there. -/
def _run_single_ticker (cfg : SchedulerConfig) (beh : GraphBehavior)
    (fsFail : String → Option String) (ticker : String) (run_time : RunInstant) :
    RunResult × List FsOp :=
  match runSingleAttempt cfg beh fsFail ticker run_time with
  | (ops, .ok (decision, report_dir, report_md)) =>
    ({ ticker := ticker, analysis_date := run_time.dateStr, decision := decision,
       run_timestamp := run_time, report_markdown := some report_md,
       report_dir := report_dir, error := Option.none }, ops)
  | (ops, .error e) =>
    let report_dir := cfg.results_dir ++ "/" ++ ticker ++ "/" ++ run_time.dateStr
    ({ ticker := ticker, analysis_date := run_time.dateStr, decision := Option.none,
       run_timestamp := run_time, report_markdown := Option.none,
       report_dir := report_dir, error := some e }, ops ++ [FsOp.mkdir report_dir])

/-- `_execute_batch`: run every configured ticker in order, collecting
one `RunResult` each (console printing elided). -/
def _execute_batch (cfg : SchedulerConfig) (behOf : String → GraphBehavior)
    (fsFail : String → Option String) (tickers : List String) (run_time : RunInstant) :
    List RunResult :=
  tickers.map fun t => (_run_single_ticker cfg (behOf t) fsFail t run_time).1

theorem run_single_fields (cfg : SchedulerConfig) (beh : GraphBehavior)
    (fsFail : String → Option String) (ticker : String) (rt : RunInstant) :
    (_run_single_ticker cfg beh fsFail ticker rt).1.ticker = ticker
    ∧ (_run_single_ticker cfg beh fsFail ticker rt).1.analysis_date = rt.dateStr
    ∧ ((_run_single_ticker cfg beh fsFail ticker rt).1.error = Option.none
        ↔ ∃ x, (runSingleAttempt cfg beh fsFail ticker rt).2 = .ok x) := by
  unfold _run_single_ticker
  rcases hr : runSingleAttempt cfg beh fsFail ticker rt with ⟨ops, res⟩
  cases res with
  | ok val =>
    rcases val with ⟨d, dir, md⟩
    simp
  | error e => simp

/-- C1: a batch produces exactly one `RunResult` per configured ticker,
in configured order; each ticker's result is exactly the result of its
own isolated `_run_single_ticker` call (so one ticker's engine or
report-writing failure never affects any other ticker, every subsequent
ticker still executes), and a result carries no error exactly when that
ticker's own attempt succeeded. -/
theorem execute_batch_isolation (cfg : SchedulerConfig) (behOf : String → GraphBehavior)
    (fsFail : String → Option String) (tickers : List String) (rt : RunInstant) :
    (_execute_batch cfg behOf fsFail tickers rt).length = tickers.length
    ∧ (∀ i, (h : i < tickers.length) →
        (_execute_batch cfg behOf fsFail tickers rt)[i]? =
          some (_run_single_ticker cfg (behOf tickers[i]) fsFail tickers[i] rt).1
        ∧ (_run_single_ticker cfg (behOf tickers[i]) fsFail tickers[i] rt).1.ticker
            = tickers[i]
        ∧ ((_run_single_ticker cfg (behOf tickers[i]) fsFail tickers[i] rt).1.error
              = Option.none
            ↔ ∃ x, (runSingleAttempt cfg (behOf tickers[i]) fsFail tickers[i] rt).2
                = .ok x)) := by
  refine ⟨by simp [_execute_batch], ?_⟩
  intro i h
  have hf := run_single_fields cfg (behOf tickers[i]) fsFail tickers[i] rt
  refine ⟨?_, hf.1, hf.2.2⟩
  simp [_execute_batch, List.getElem?_eq_getElem h]

theorem performOps_no_fail (fsFail : String → Option String)
    (hf : ∀ p, fsFail p = Option.none) :
    ∀ ops : List FsOp, performOps fsFail ops = (ops, Option.none) := by
  intro ops
  induction ops with
  | nil => rfl
  | cons op rest ih =>
    cases op with
    | mkdir p => simp [performOps, ih]
    | write p => simp [performOps, hf p, ih]

theorem runSingleAttempt_ok (cfg : SchedulerConfig) (beh : GraphBehavior)
    (fsFail : String → Option String) (ticker : String) (rt : RunInstant)
    (st : FinalState) (d : Option String)
    (hc : beh.constructErr = Option.none)
    (hp : beh.propagate ticker rt.dateStr = .ok (st, d))
    (hf : ∀ p, fsFail p = Option.none) :
    ∃ x, (runSingleAttempt cfg beh fsFail ticker rt).2 = .ok x := by
  unfold runSingleAttempt
  rw [hc, hp]
  unfold _write_outputs
  obtain ⟨w, hw⟩ := (jsonSafe_ok_aux (sizeOf (finalStateToPy st) + 1)).1
    (finalStateToPy st) (Nat.lt_succ_self _)
  simp only [performOps_no_fail fsFail hf, hw]
  exact ⟨_, rfl⟩

/-- Witness for C1: the claim's own example — a batch of three tickers
where the second ticker's engine call fails yields three results, the
second failed and the first and third intact. -/
theorem execute_batch_isolation_witness :
    let cfg : SchedulerConfig := { results_dir := "results" }
    let behOf : String → GraphBehavior := fun t =>
      if t = "B" then { propagate := fun _ _ => .error "engine down" }
      else { propagate := fun _ _ => .ok ({}, some "BUY") }
    let rt : RunInstant := ⟨"2025-09-30", "09-30"⟩
    let f : String → Option String := fun _ => Option.none
    let batch := _execute_batch cfg behOf f ["A", "B", "C"] rt
    batch.length = 3
    ∧ batch[1]? = some (_run_single_ticker cfg (behOf "B") f "B" rt).1
    ∧ (_run_single_ticker cfg (behOf "B") f "B" rt).1.error = some "engine down"
    ∧ (_run_single_ticker cfg (behOf "A") f "A" rt).1.error = Option.none
    ∧ (_run_single_ticker cfg (behOf "C") f "C" rt).1.error = Option.none := by
  intro cfg behOf rt f batch
  have h := execute_batch_isolation cfg behOf f ["A", "B", "C"] rt
  have h0 := h.2 0 (by decide)
  have h1 := h.2 1 (by decide)
  have h2 := h.2 2 (by decide)
  refine ⟨h.1, h1.1, rfl, ?_, ?_⟩
  · exact (h0.2.2).mpr
      (runSingleAttempt_ok cfg (behOf "A") f "A" rt {} (some "BUY") rfl rfl fun _ => rfl)
  · exact (h2.2.2).mpr
      (runSingleAttempt_ok cfg (behOf "C") f "C" rt {} (some "BUY") rfl rfl fun _ => rfl)

/-- C8: `RunResult.success` is true exactly when `error` is absent, and
no `RunResult` produced by `_run_single_ticker` — success or failure
path — ever carries both a decision and an error. -/
theorem run_result_success_invariant :
    (∀ r : RunResult, r.success = true ↔ r.error = Option.none)
    ∧ (∀ (cfg : SchedulerConfig) (beh : GraphBehavior)
        (fsFail : String → Option String) (ticker : String) (rt : RunInstant),
        ¬ ((_run_single_ticker cfg beh fsFail ticker rt).1.decision.isSome = true
           ∧ (_run_single_ticker cfg beh fsFail ticker rt).1.error.isSome = true)) := by
  constructor
  · intro r
    simp [RunResult.success, Option.isNone_iff_eq_none]
  · intro cfg beh fsFail ticker rt
    unfold _run_single_ticker
    rcases hr : runSingleAttempt cfg beh fsFail ticker rt with ⟨ops, res⟩
    cases res with
    | ok val =>
      rcases val with ⟨d, dir, md⟩
      simp
    | error e => simp

/-- C7 counterexample: when the engine call fails, the directory the
failure path creates and records in `report_dir` is
`results_root/subject/date` — the time-of-day label is absent, so the
claimed `results_root/subject/date/time-of-day-label` directory is
neither created nor pointed at. -/
theorem run_single_failure_dir_counterexample :
    let beh : GraphBehavior := { propagate := fun _ _ => .error "boom" }
    let rt : RunInstant := ⟨"2025-09-30", "09-30"⟩
    let out := _run_single_ticker ⟨"results", true⟩ beh (fun _ => Option.none) "T" rt
    out.1.report_dir = "results/T/2025-09-30"
    ∧ out.1.report_dir ≠ "results/T/2025-09-30/09-30"
    ∧ out.2 = [FsOp.mkdir "results/T/2025-09-30"]
    ∧ FsOp.mkdir "results/T/2025-09-30/09-30" ∉ out.2
    ∧ out.1.error = some "boom" := by
  decide

/-- C7 amended: on any failure of the engine call or of report writing,
`_run_single_ticker` still creates a destination directory — the
directory keyed by `results_root/subject/date`, without the time-of-day
label — and returns a `RunResult` whose `report_dir` points at that
directory, with `error` set to the failure's description and no report
content. -/
theorem run_single_failure_amended (cfg : SchedulerConfig) (beh : GraphBehavior)
    (fsFail : String → Option String) (ticker : String) (rt : RunInstant) (e : String)
    (h : (runSingleAttempt cfg beh fsFail ticker rt).2 = .error e) :
    (_run_single_ticker cfg beh fsFail ticker rt).1.report_dir
        = cfg.results_dir ++ "/" ++ ticker ++ "/" ++ rt.dateStr
    ∧ (_run_single_ticker cfg beh fsFail ticker rt).1.error = some e
    ∧ (_run_single_ticker cfg beh fsFail ticker rt).1.decision = Option.none
    ∧ (_run_single_ticker cfg beh fsFail ticker rt).1.report_markdown = Option.none
    ∧ FsOp.mkdir (cfg.results_dir ++ "/" ++ ticker ++ "/" ++ rt.dateStr)
        ∈ (_run_single_ticker cfg beh fsFail ticker rt).2 := by
  unfold _run_single_ticker
  rcases hr : runSingleAttempt cfg beh fsFail ticker rt with ⟨ops, res⟩
  rw [hr] at h
  cases res with
  | ok val => simp at h
  | error e2 =>
    simp at h
    subst h
    simp

/-- Witness for C7 amended: a concrete write failure (the root
`final_report.md` write raises) still yields the date-keyed directory
and a failed `RunResult`. -/
theorem run_single_failure_amended_witness :
    (_run_single_ticker ⟨"results", true⟩
        { propagate := fun _ _ => .ok ({}, some "BUY") }
        (fun p => if p = "results/T/2025-09-30/09-30/final_report.md"
          then some "disk full" else Option.none)
        "T" ⟨"2025-09-30", "09-30"⟩).1.report_dir = "results/T/2025-09-30"
    ∧ (_run_single_ticker ⟨"results", true⟩
        { propagate := fun _ _ => .ok ({}, some "BUY") }
        (fun p => if p = "results/T/2025-09-30/09-30/final_report.md"
          then some "disk full" else Option.none)
        "T" ⟨"2025-09-30", "09-30"⟩).1.error = some "disk full" := by
  have h := run_single_failure_amended ⟨"results", true⟩
    { propagate := fun _ _ => .ok ({}, some "BUY") }
    (fun p => if p = "results/T/2025-09-30/09-30/final_report.md"
      then some "disk full" else Option.none)
    "T" ⟨"2025-09-30", "09-30"⟩ "disk full" rfl
  exact ⟨h.1, h.2.1⟩

/-! ### Notification channels (scheduler.py lines 220-398, 576-605) -/

/-- Python falsiness of an optional string configuration value
(`None` and `""` falsy). -/
def falsyOpt : Option String → Bool
  | Option.none => true
  | some s => s.data.isEmpty

/-- Email channel configuration (`_gather_email_config` result);
`recipients` embeds the source's `to` field (`to` is reserved in Lean),
`fromAddr` its `from` field. -/
structure EmailConfig where
  enabled : Bool
  host : Option String := Option.none
  port : Nat := 587
  username : Option String := Option.none
  password : Option String := Option.none
  fromAddr : Option String := Option.none
  recipients : List String := []
  use_ssl : Bool := false

/-- Messaging channel configuration (`_gather_whatsapp_config`
result); `recipients` embeds the source's `to` field. -/
structure WhatsAppConfig where
  enabled : Bool
  access_token : Option String := Option.none
  phone_number_id : Option String := Option.none
  recipients : List String := []

/-- A raised send error: `ValueError` for configuration problems, or a
transport-layer exception. -/
inductive SendErr where
  | config (msg : String)
  | transport (msg : String)
deriving DecidableEq, Repr

/-- `str(exc)` of a send error. -/
def SendErr.msg : SendErr → String
  | .config m => m
  | .transport m => m

/-- The `missing` list of `_send_email`: required fields that are falsy,
in check order. -/
def emailMissing (cfg : EmailConfig) : List String :=
  ([("host", cfg.host), ("username", cfg.username),
    ("password", cfg.password), ("from", cfg.fromAddr)]).filterMap
    fun kv => if falsyOpt kv.2 then some kv.1 else Option.none

/-- `_send_email`: disabled channel is a no-op; an enabled channel
validates `host`/`username`/`password`/`from` and the recipient list
before any SMTP traffic.  `transport` is the outcome of the SMTP
session when one is attempted (`some e` models the session raising
`e`); the returned `Bool` records whether a session was attempted. -/
def _send_email (cfg : EmailConfig) (transport : Option String) :
    Bool × Except SendErr Unit :=
  if !cfg.enabled then (false, .ok ())
  else if !(emailMissing cfg).isEmpty then
    (false, .error (.config ("Email delivery enabled but configuration missing values: "
      ++ String.intercalate ", " (emailMissing cfg))))
  else if cfg.recipients.isEmpty then
    (false, .error (.config "Email delivery enabled but no recipients provided"))
  else
    match transport with
    | some e => (true, .error (.transport e))
    | Option.none => (true, .ok ())

/-- Result of one `requests.post` call. -/
structure HttpResponse where
  ok : Bool
  status : Nat
  text : String

/-- The `missing` list of `_send_whatsapp_message`, in check order. -/
def waMissing (cfg : WhatsAppConfig) : List String :=
  ([("access_token", cfg.access_token),
    ("phone_number_id", cfg.phone_number_id)]).filterMap
    fun kv => if falsyOpt kv.2 then some kv.1 else Option.none

/-- The per-recipient POST loop of `_send_whatsapp_message`: one request
per recipient in list order, raising on the first non-success status
(after its request was issued) and issuing no further requests.
Returns the recipients actually POSTed and the outcome. -/
def waSendLoop (http : String → HttpResponse) :
    List String → List String × Except SendErr Unit
  | [] => ([], .ok ())
  | r :: rest =>
    let resp := http r
    if resp.ok then
      let t := waSendLoop http rest
      (r :: t.1, t.2)
    else
      ([r], .error (.transport ("Error al enviar WhatsApp a " ++ r ++ ": "
        ++ toString resp.status ++ " " ++ resp.text)))

/-- `_send_whatsapp_message`: disabled channel is a no-op; an enabled
channel validates `access_token`/`phone_number_id` and the recipient
list before any HTTP traffic, then runs the per-recipient loop.
Returns the recipients POSTed and the outcome. -/
def _send_whatsapp_message (cfg : WhatsAppConfig) (http : String → HttpResponse)
    (_body : String) : List String × Except SendErr Unit :=
  if !cfg.enabled then ([], .ok ())
  else if !(waMissing cfg).isEmpty then
    ([], .error (.config ("Configuración de WhatsApp incompleta: falta "
      ++ String.intercalate ", " (waMissing cfg))))
  else if cfg.recipients.isEmpty then
    ([], .error (.config "Configura al menos un destinatario de WhatsApp"))
  else waSendLoop http cfg.recipients

/-- Python `str.replace("\n", " ")`. -/
def replaceNl (s : String) : String :=
  ⟨s.data.map fun c => if c = Char.ofNat 10 then ' ' else c⟩

/-- The excerpt truncation of `_build_whatsapp_message`:
`s[:157] + "..."` when `len(s) > 160`. -/
def waTruncate (s : String) : String :=
  if 160 < s.data.length then (⟨s.data.take 157⟩ : String) ++ "..." else s

/-- The lines contributed to the aggregated message by one result. -/
def waResultLines (r : RunResult) : List String :=
  [(if r.success then "✅" else "❌") ++ " " ++ r.ticker ++ " · " ++ r.analysis_date]
  ++ (if r.success && truthyOpt r.decision then
        ["Decisión: " ++ waTruncate (replaceNl (r.decision.getD ""))] else [])
  ++ (if !r.success && truthyOpt r.error then
        ["Error: " ++ waTruncate (replaceNl (r.error.getD ""))] else [])
  ++ ["Reporte: " ++ r.report_dir]

/-- The lines of `_build_whatsapp_message`; `runLabel` is the formatted
`run_time.strftime("%Y-%m-%d %H:%M")`. -/
def _build_whatsapp_lines (runLabel : String) (results : List RunResult) : List String :=
  ("TradingAgents Scheduler (" ++ runLabel ++ ")")
    :: (results.flatMap waResultLines ++ ["— TradingAgents"])

/-- `_build_whatsapp_message`: the aggregated plain-text body. -/
def _build_whatsapp_message (runLabel : String) (results : List RunResult) : String :=
  String.intercalate "\n" (_build_whatsapp_lines runLabel results)

/-- What `_send_notifications` did: recipients POSTed on the messaging
channel, tickers whose email was attempted, and the aggregated error
strings (logged as one warning, never raised). -/
structure NotifyTrace where
  waPosts : List String
  emailAttempts : List String
  errors : List String
deriving Repr

/-- `_send_notifications`: the messaging channel first (its failure
caught and recorded), then one email per result (each failure caught
per result and recorded), then the errors logged together. -/
def _send_notifications (waCfg : WhatsAppConfig) (emCfg : EmailConfig)
    (http : String → HttpResponse) (emailTransport : RunResult → Option String)
    (runLabel : String) (results : List RunResult) : NotifyTrace :=
  let waStep :=
    if waCfg.enabled then
      let sent := _send_whatsapp_message waCfg http (_build_whatsapp_message runLabel results)
      match sent.2 with
      | .ok _ => (sent.1, ([] : List String))
      | .error e => (sent.1, ["WhatsApp: " ++ e.msg])
    else ([], [])
  let emailStep :=
    if emCfg.enabled then
      (results.map RunResult.ticker,
       results.filterMap fun r =>
         match (_send_email emCfg (emailTransport r)).2 with
         | .ok _ => Option.none
         | .error e => some ("Email " ++ r.ticker ++ ": " ++ e.msg))
    else ([], [])
  { waPosts := waStep.1, emailAttempts := emailStep.1,
    errors := waStep.2 ++ emailStep.2 }

/-! ### Lemmas about the notification channels -/

theorem waSendLoop_no_config (http : String → HttpResponse) :
    ∀ (l : List String) (m : String), (waSendLoop http l).2 ≠ .error (.config m) := by
  intro l
  induction l with
  | nil => intro m h; simp [waSendLoop] at h
  | cons r rest ih =>
    intro m h
    by_cases hok : (http r).ok = true
    · simp only [waSendLoop, hok, if_true] at h
      exact ih m h
    · simp [waSendLoop, hok] at h

theorem waSendLoop_all_ok (http : String → HttpResponse) :
    ∀ l : List String, (∀ r ∈ l, (http r).ok = true) → waSendLoop http l = (l, .ok ()) := by
  intro l
  induction l with
  | nil => intro _; rfl
  | cons r rest ih =>
    intro h
    have hr := h r (by simp)
    have hrest := ih fun x hx => h x (by simp [hx])
    simp [waSendLoop, hr, hrest]

theorem waSendLoop_first_fail (http : String → HttpResponse) :
    ∀ (l : List String) (i : Nat) (h : i < l.length),
      (∀ j, (hj : j < l.length) → j < i → (http l[j]).ok = true) →
      (http l[i]).ok = false →
      waSendLoop http l =
        (l.take (i + 1),
         .error (.transport ("Error al enviar WhatsApp a " ++ l[i] ++ ": "
           ++ toString (http l[i]).status ++ " " ++ (http l[i]).text))) := by
  intro l
  induction l with
  | nil => intro i h; exact absurd h (Nat.not_lt_zero i)
  | cons r rest ih =>
    intro i h hpre hfail
    cases i with
    | zero =>
      simp only [List.getElem_cons_zero] at hfail
      simp [waSendLoop, hfail]
    | succ i2 =>
      have hr : (http r).ok = true := by
        have := hpre 0 (by omega) (by omega)
        simpa using this
      have hrest := ih i2 (by simpa using h)
        (fun j hj hlt => by
          have := hpre (j + 1) (by omega) (by omega)
          simpa using this)
        (by simpa using hfail)
      simp [waSendLoop, hr, hrest]

/-- C10: with the messaging channel enabled and fully configured, the
send function issues one POST per recipient in list order; if every
request succeeds all recipients are posted, and a non-success status for
recipient `i` raises an error naming that recipient after its own
request, with no request issued to any later recipient. -/
theorem whatsapp_send_per_recipient (cfg : WhatsAppConfig) (http : String → HttpResponse)
    (body : String) (hen : cfg.enabled = true) (hmiss : waMissing cfg = [])
    (hto : cfg.recipients ≠ []) :
    ((∀ r ∈ cfg.recipients, (http r).ok = true) →
      _send_whatsapp_message cfg http body = (cfg.recipients, .ok ()))
    ∧ (∀ i, (h : i < cfg.recipients.length) →
        (∀ j, (hj : j < cfg.recipients.length) → j < i →
          (http cfg.recipients[j]).ok = true) →
        (http cfg.recipients[i]).ok = false →
        _send_whatsapp_message cfg http body =
          (cfg.recipients.take (i + 1),
           .error (.transport ("Error al enviar WhatsApp a " ++ cfg.recipients[i] ++ ": "
             ++ toString (http cfg.recipients[i]).status ++ " "
             ++ (http cfg.recipients[i]).text)))) := by
  have hred : _send_whatsapp_message cfg http body = waSendLoop http cfg.recipients := by
    unfold _send_whatsapp_message
    rw [hen, hmiss]
    simp [List.isEmpty_iff, hto]
  constructor
  · intro hall
    rw [hred]
    exact waSendLoop_all_ok http _ hall
  · intro i h hpre hfail
    rw [hred]
    exact waSendLoop_first_fail http _ i h hpre hfail

/-- Witness for C10: three recipients, the second failing with HTTP
500 — the first two are posted, the third is not, and the error names
the second recipient. -/
theorem whatsapp_send_per_recipient_witness :
    let cfg : WhatsAppConfig :=
      { enabled := true
        access_token := some "tok"
        phone_number_id := some "123"
        recipients := ["r1", "r2", "r3"] }
    let http : String → HttpResponse := fun r =>
      if r = "r2" then ⟨false, 500, "err"⟩ else ⟨true, 200, "ok"⟩
    _send_whatsapp_message cfg http "body" =
      (cfg.recipients.take 2,
       .error (.transport ("Error al enviar WhatsApp a " ++ cfg.recipients[1] ++ ": "
         ++ toString (http cfg.recipients[1]).status ++ " "
         ++ (http cfg.recipients[1]).text))) := by
  intro cfg http
  exact (whatsapp_send_per_recipient cfg http "body" rfl rfl (by decide)).2 1 (by decide)
    (by
      intro j hj hlt
      have hj0 : j = 0 := by omega
      subst hj0
      rfl)
    rfl

/-- C9: a disabled channel's send function is a no-op requiring no
credentials; an enabled channel raises a configuration error at send
time exactly when a required field is missing (email:
host/username/password/from or an empty recipient list; messaging:
access token/sender identifier or an empty recipient list), and a
configuration error means no transport operation was attempted. -/
theorem channel_validation (emCfg : EmailConfig) (waCfg : WhatsAppConfig)
    (transport : Option String) (http : String → HttpResponse) (body : String) :
    (emCfg.enabled = false → _send_email emCfg transport = (false, .ok ()))
    ∧ (emCfg.enabled = true →
        ((¬ emailMissing emCfg = [] ∨ emCfg.recipients = []) ↔
          ∃ m, (_send_email emCfg transport).2 = .error (.config m)))
    ∧ ((∃ m, (_send_email emCfg transport).2 = .error (.config m)) →
        (_send_email emCfg transport).1 = false)
    ∧ (waCfg.enabled = false → _send_whatsapp_message waCfg http body = ([], .ok ()))
    ∧ (waCfg.enabled = true →
        ((¬ waMissing waCfg = [] ∨ waCfg.recipients = []) ↔
          ∃ m, (_send_whatsapp_message waCfg http body).2 = .error (.config m)))
    ∧ ((∃ m, (_send_whatsapp_message waCfg http body).2 = .error (.config m)) →
        (_send_whatsapp_message waCfg http body).1 = []) := by
  refine ⟨?_, ?_, ?_, ?_, ?_, ?_⟩
  · intro h
    simp [_send_email, h]
  · intro hen
    constructor
    · rintro (hm | hr)
      · simp [_send_email, hen, List.isEmpty_iff, hm]
      · by_cases hm : emailMissing emCfg = []
        · simp [_send_email, hen, List.isEmpty_iff, hm, hr]
        · simp [_send_email, hen, List.isEmpty_iff, hm]
    · rintro ⟨m, hm⟩
      by_contra hno
      push_neg at hno
      obtain ⟨h1, h2⟩ := hno
      simp only [_send_email, hen, List.isEmpty_iff, h1] at hm
      cases transport with
      | none => simp [h2] at hm
      | some e => simp [h2] at hm
  · rintro ⟨m, hm⟩
    by_cases hen : emCfg.enabled
    · by_cases h1 : emailMissing emCfg = []
      · by_cases h2 : emCfg.recipients = []
        · simp [_send_email, hen, List.isEmpty_iff, h1, h2]
        · exfalso
          simp only [_send_email, hen, List.isEmpty_iff, h1] at hm
          cases transport with
          | none => simp [h2] at hm
          | some e => simp [h2] at hm
      · simp [_send_email, hen, List.isEmpty_iff, h1]
    · simp [_send_email, hen]
  · intro h
    simp [_send_whatsapp_message, h]
  · intro hen
    constructor
    · rintro (hm | hr)
      · simp [_send_whatsapp_message, hen, List.isEmpty_iff, hm]
      · by_cases hm : waMissing waCfg = []
        · simp [_send_whatsapp_message, hen, List.isEmpty_iff, hm, hr]
        · simp [_send_whatsapp_message, hen, List.isEmpty_iff, hm]
    · rintro ⟨m, hm⟩
      by_contra hno
      push_neg at hno
      obtain ⟨h1, h2⟩ := hno
      simp only [_send_whatsapp_message, hen, List.isEmpty_iff, h1, h2] at hm
      exact waSendLoop_no_config http waCfg.recipients m hm
  · rintro ⟨m, hm⟩
    by_cases hen : waCfg.enabled
    · by_cases h1 : waMissing waCfg = []
      · by_cases h2 : waCfg.recipients = []
        · simp [_send_whatsapp_message, hen, List.isEmpty_iff, h1, h2]
        · exfalso
          simp only [_send_whatsapp_message, hen, List.isEmpty_iff, h1, h2] at hm
          exact waSendLoop_no_config http waCfg.recipients m hm
      · simp [_send_whatsapp_message, hen, List.isEmpty_iff, h1]
    · simp [_send_whatsapp_message, hen]

/-- Witness for C9: a disabled email channel with no credentials is a
no-op; an enabled email channel missing username/password/from raises a
configuration error; same for the messaging channel. -/
theorem channel_validation_witness :
    _send_email { enabled := false } (some "smtp down") = (false, .ok ())
    ∧ (∃ m, (_send_email { enabled := true, host := some "h" } Option.none).2
        = .error (.config m))
    ∧ _send_whatsapp_message { enabled := false } (fun _ => ⟨true, 200, "ok"⟩) "b"
        = ([], .ok ())
    ∧ (∃ m, (_send_whatsapp_message { enabled := true, access_token := some "t" }
        (fun _ => ⟨true, 200, "ok"⟩) "b").2 = .error (.config m)) := by
  have h1 := channel_validation { enabled := false } { enabled := false }
    (some "smtp down") (fun _ => ⟨true, 200, "ok"⟩) "b"
  have h2 := channel_validation { enabled := true, host := some "h" }
    { enabled := true, access_token := some "t" }
    Option.none (fun _ => ⟨true, 200, "ok"⟩) "b"
  exact ⟨h1.1 rfl, (h2.2.1 rfl).mp (Or.inl (by decide)),
    h1.2.2.2.1 rfl, (h2.2.2.2.2.1 rfl).mp (Or.inl (by decide))⟩

/-- C5: notification dispatch never propagates an exception: when email
is enabled every subject's email is attempted in order whatever the
messaging-channel outcome and whatever each email's own outcome (each
failure is caught per subject, the messaging channel per channel), and
all collected failures are aggregated into one error list — at most one
messaging-channel entry plus at most one entry per subject — instead of
being raised. -/
theorem send_notifications_isolation (waCfg : WhatsAppConfig) (emCfg : EmailConfig)
    (http : String → HttpResponse) (emailTransport : RunResult → Option String)
    (runLabel : String) (results : List RunResult) :
    (_send_notifications waCfg emCfg http emailTransport runLabel results).emailAttempts
        = (if emCfg.enabled then results.map RunResult.ticker else [])
    ∧ (_send_notifications waCfg emCfg http emailTransport runLabel results).errors
        = (if waCfg.enabled then
            (match (_send_whatsapp_message waCfg http
                (_build_whatsapp_message runLabel results)).2 with
              | .ok _ => []
              | .error e => ["WhatsApp: " ++ e.msg])
            else [])
          ++ (if emCfg.enabled then
                results.filterMap fun r =>
                  match (_send_email emCfg (emailTransport r)).2 with
                  | .ok _ => Option.none
                  | .error e => some ("Email " ++ r.ticker ++ ": " ++ e.msg)
              else [])
    ∧ (_send_notifications waCfg emCfg http emailTransport runLabel results).errors.length
        ≤ 1 + results.length := by
  have hsplit :
      (_send_notifications waCfg emCfg http emailTransport runLabel results).emailAttempts
          = (if emCfg.enabled then results.map RunResult.ticker else [])
      ∧ (_send_notifications waCfg emCfg http emailTransport runLabel results).errors
          = (if waCfg.enabled then
              (match (_send_whatsapp_message waCfg http
                  (_build_whatsapp_message runLabel results)).2 with
                | .ok _ => []
                | .error e => ["WhatsApp: " ++ e.msg])
              else [])
            ++ (if emCfg.enabled then
                  results.filterMap fun r =>
                    match (_send_email emCfg (emailTransport r)).2 with
                    | .ok _ => Option.none
                    | .error e => some ("Email " ++ r.ticker ++ ": " ++ e.msg)
                else []) := by
    unfold _send_notifications
    cases hwa : waCfg.enabled with
    | false =>
      cases hem : emCfg.enabled with
      | false => exact ⟨rfl, rfl⟩
      | true => exact ⟨rfl, rfl⟩
    | true =>
      cases hsent : (_send_whatsapp_message waCfg http
          (_build_whatsapp_message runLabel results)).2 with
      | ok u =>
        cases hem : emCfg.enabled with
        | false => simp [hsent]
        | true => simp [hsent]
      | error e =>
        cases hem : emCfg.enabled with
        | false => simp [hsent]
        | true => simp [hsent]
  refine ⟨hsplit.1, hsplit.2, ?_⟩
  rw [hsplit.2]
  rw [List.length_append]
  have hwa1 : (if waCfg.enabled then
      (match (_send_whatsapp_message waCfg http
          (_build_whatsapp_message runLabel results)).2 with
        | .ok _ => ([] : List String)
        | .error e => ["WhatsApp: " ++ e.msg])
      else []).length ≤ 1 := by
    cases waCfg.enabled
    · simp
    · cases (_send_whatsapp_message waCfg http
          (_build_whatsapp_message runLabel results)).2 <;> simp
  have hem1 : (if emCfg.enabled then
        results.filterMap fun r =>
          match (_send_email emCfg (emailTransport r)).2 with
          | .ok _ => Option.none
          | .error e => some ("Email " ++ r.ticker ++ ": " ++ e.msg)
      else []).length ≤ results.length := by
    cases emCfg.enabled
    · simp
    · simpa using List.length_filterMap_le _ results
  omega

set_option maxRecDepth 100000 in
/-- C6 counterexample: for a decision of 200 characters the decision
line of the aggregated body holds an excerpt of length 157 followed by
the three-character ellipsis (total 160) — not an excerpt of length 160
followed by an ellipsis: the truncated text differs from the claimed
shape and the claimed line is absent from the body. -/
theorem whatsapp_truncation_counterexample :
    let d : String := ⟨List.replicate 200 'a'⟩
    let r : RunResult :=
      { ticker := "T"
        analysis_date := "2025-09-30"
        decision := some d
        run_timestamp := ⟨"2025-09-30", "09-30"⟩
        report_markdown := some "md"
        report_dir := "dir"
        error := Option.none }
    ("Decisión: " ++ waTruncate (replaceNl d)) ∈ _build_whatsapp_lines "L" [r]
    ∧ waTruncate (replaceNl d) = (⟨List.replicate 157 'a'⟩ : String) ++ "..."
    ∧ (⟨List.replicate 157 'a'⟩ : String) ++ "..."
        ≠ (⟨List.replicate 160 'a'⟩ : String) ++ "..."
    ∧ ("Decisión: " ++ ((⟨List.replicate 160 'a'⟩ : String) ++ "..."))
        ∉ _build_whatsapp_lines "L" [r] := by
  decide

/-- C6 amended: for a successful result whose newline-flattened decision
exceeds 160 characters, the aggregated body's lines contain the decision
excerpt truncated to its first 157 characters followed by a
three-character ellipsis marker, for a truncated text of length 160; an
error text on a failed result is truncated under the same rule. -/
theorem whatsapp_truncation_amended :
    (∀ (runLabel : String) (results : List RunResult) (r : RunResult) (d : String),
      r ∈ results → r.decision = some d → r.error = Option.none →
      160 < (replaceNl d).data.length →
      ("Decisión: " ++ ((⟨(replaceNl d).data.take 157⟩ : String) ++ "..."))
        ∈ _build_whatsapp_lines runLabel results)
    ∧ (∀ (runLabel : String) (results : List RunResult) (r : RunResult) (e : String),
      r ∈ results → r.error = some e →
      160 < (replaceNl e).data.length →
      ("Error: " ++ ((⟨(replaceNl e).data.take 157⟩ : String) ++ "..."))
        ∈ _build_whatsapp_lines runLabel results)
    ∧ (∀ s : String, 160 < (replaceNl s).data.length →
        (waTruncate (replaceNl s)).data.length = 160) := by
  refine ⟨?_, ?_, ?_⟩
  · intro runLabel results r d hr hd herr hlen
    have hsucc : r.success = true := by
      simp [RunResult.success, herr]
    have htr : waTruncate (replaceNl d) =
        (⟨(replaceNl d).data.take 157⟩ : String) ++ "..." := by
      unfold waTruncate
      rw [if_pos hlen]
    have hlen2 : (replaceNl d).data.length = d.data.length := by
      simp [replaceNl]
    have hne : ¬ d.data.isEmpty := by
      rw [List.isEmpty_iff]
      intro hemp
      rw [hlen2, hemp] at hlen
      simp at hlen
    have hmem : ("Decisión: " ++ waTruncate (replaceNl d)) ∈ waResultLines r := by
      unfold waResultLines
      rw [hsucc, hd]
      simp [truthyOpt, hne]
    rw [htr] at hmem
    unfold _build_whatsapp_lines
    exact List.mem_cons_of_mem _ (List.mem_append_left _
      (List.mem_flatMap_of_mem hr hmem))
  · intro runLabel results r e hr he hlen
    have hsucc : r.success = false := by
      simp [RunResult.success, he]
    have htr : waTruncate (replaceNl e) =
        (⟨(replaceNl e).data.take 157⟩ : String) ++ "..." := by
      unfold waTruncate
      rw [if_pos hlen]
    have hlen2 : (replaceNl e).data.length = e.data.length := by
      simp [replaceNl]
    have hne : ¬ e.data.isEmpty := by
      rw [List.isEmpty_iff]
      intro hemp
      rw [hlen2, hemp] at hlen
      simp at hlen
    have hmem : ("Error: " ++ waTruncate (replaceNl e)) ∈ waResultLines r := by
      unfold waResultLines
      rw [hsucc, he]
      simp [truthyOpt, hne]
    rw [htr] at hmem
    unfold _build_whatsapp_lines
    exact List.mem_cons_of_mem _ (List.mem_append_left _
      (List.mem_flatMap_of_mem hr hmem))
  · intro s hlen
    unfold waTruncate
    rw [if_pos hlen]
    rw [String.data_append, List.length_append]
    have h1 : ((⟨(replaceNl s).data.take 157⟩ : String)).data
        = (replaceNl s).data.take 157 := rfl
    rw [h1, List.length_take]
    have h3 : ("..." : String).data.length = 3 := rfl
    rw [h3]
    omega

set_option maxRecDepth 100000 in
/-- Witness for C6 amended: a batch with one successful result holding a
200-character decision and one failed result holding a 170-character
error shows both truncated lines in the body, each of length 160 after
truncation. -/
theorem whatsapp_truncation_amended_witness :
    let d : String := ⟨List.replicate 200 'a'⟩
    let e : String := ⟨List.replicate 170 'b'⟩
    let r1 : RunResult :=
      { ticker := "T"
        analysis_date := "2025-09-30"
        decision := some d
        run_timestamp := ⟨"2025-09-30", "09-30"⟩
        report_markdown := some "md"
        report_dir := "dir"
        error := Option.none }
    let r2 : RunResult :=
      { ticker := "U"
        analysis_date := "2025-09-30"
        decision := Option.none
        run_timestamp := ⟨"2025-09-30", "09-30"⟩
        report_markdown := Option.none
        report_dir := "dir2"
        error := some e }
    ("Decisión: " ++ ((⟨(replaceNl d).data.take 157⟩ : String) ++ "..."))
        ∈ _build_whatsapp_lines "L" [r1, r2]
    ∧ ("Error: " ++ ((⟨(replaceNl e).data.take 157⟩ : String) ++ "..."))
        ∈ _build_whatsapp_lines "L" [r1, r2]
    ∧ (waTruncate (replaceNl d)).data.length = 160 := by
  intro d e r1 r2
  have h := whatsapp_truncation_amended
  exact ⟨h.1 "L" [r1, r2] r1 d (by simp) rfl rfl (by decide),
    h.2.1 "L" [r1, r2] r2 e (by simp) rfl (by decide),
    h.2.2 d (by decide)⟩

end TradingAgents
